import Mathlib

/-!
A shallow embedding of `src/mi-tokio.rs`: a minimal single-process
cooperative executor (MiniTokio), its Task harness, the ArcWake wake
protocol, and the hand-written `Delay` leaf future.

Modelling conventions:
* `Instant` and `Duration` are `Nat` (a monotonic clock in abstract ticks).
* A `Waker` produced by `futures::task::waker(arc)` is identified by the
  `Arc<Task>` it wakes; `will_wake` compares that identity (data pointer),
  so two wakers of the same task satisfy `will_wake` and wakers of
  distinct tasks do not.
* The crossbeam unbounded channel is a FIFO list of task references plus a
  `closed` flag (receiver dropped); `send` appends at the tail and is a
  no-op returning an ignored `Err` when the channel is closed, `recv`
  takes the head.
* Fallible operations that panic in Rust (`Option::unwrap` on `None` in
  the free-standing `spawn`) are `Option`-valued, `none` meaning panic;
  operations whose `Result` the source discards with `let _ =` are total.
-/

namespace MiTokio

/-- The `std::task::Poll` type. -/
inductive Poll (α : Type) where
  | Ready : α → Poll α
  | Pending : Poll α
deriving DecidableEq, Repr

/-- A task reference (`Arc<Task>`): an index into the world's task ledger. -/
abbrev TaskRef := Nat

/-- A `std::task::Waker` obtained from `futures::task::waker`: its identity
is the `Arc<Task>` it re-enqueues. -/
structure Waker where
  taskRef : TaskRef
deriving DecidableEq, Repr

/-- Method `Waker::will_wake`: true iff the two wakers would wake the same task
(same underlying `Arc<Task>` data pointer). -/
def Waker.will_wake (a b : Waker) : Bool :=
  a.taskRef == b.taskRef

/-- The `Delay` future of `delay`:
`when` is the deadline instant; `waker` is the
`Option<Arc<Mutex<Waker>>>` slot, absent until the first poll. -/
structure Delay where
  when : Nat
  waker : Option Waker
deriving DecidableEq, Repr

/-- Function `Delay::poll` (src/mi-tokio.rs lines 145-190). Returns the updated
delay state, the poll result, and whether this call spawned the timer
thread. If the waker slot is present, the stored waker is replaced by the
context's waker exactly when `will_wake` fails; if the slot is absent
(first poll) the context's waker is captured and the timer thread is
spawned. Either way the result is `Ready` iff `Instant::now() >= when`. -/
def Delay.poll (d : Delay) (cx : Waker) (now : Nat) : Delay × Poll Unit × Bool :=
  let step : Delay × Bool :=
    match d.waker with
    | some w =>
        (if ¬ (w.will_wake cx) then { d with waker := some cx } else d, false)
    | none =>
        ({ d with waker := some cx }, true)
  (step.1, if d.when ≤ now then Poll.Ready () else Poll.Pending, step.2)

/-- Iterated polls of one `Delay` instance: fold `Delay.poll` over a list
of (context waker, current instant) pairs, counting how many of the calls
spawned a timer thread. -/
def Delay.pollSeq : Delay → List (Waker × Nat) → Delay × Nat
  | d, [] => (d, 0)
  | d, (cx, now) :: rest =>
      let r := d.poll cx now
      let s := r.1.pollSeq rest
      (s.1, (if r.2.2 then 1 else 0) + s.2)

/-- The instant at which the timer thread fires: it reads `now0`, sleeps
for `when - now0` if `now0 < when`, then fires. -/
def timerFireTime (whenT now0 : Nat) : Nat :=
  if now0 < whenT then now0 + (whenT - now0) else now0

/-- The timer thread body spawned by `Delay::poll` (lines 163-173): sleep
until the deadline if needed, then lock the shared slot and fire the waker
it holds at that moment, once. Result: the fire instant and the list of
fire events (`slotAtFire` is the slot's content when the lock is taken). -/
def timerThread (whenT now0 : Nat) (slotAtFire : Waker) : Nat × List Waker :=
  (timerFireTime whenT now0, [slotAtFire])

/-- One crossbeam channel: FIFO buffer of task references, plus whether
the receiving half has been dropped. -/
structure Chan where
  buf : List TaskRef
  closed : Bool
deriving DecidableEq, Repr

/-- Method `Sender::send`: appends at the tail; on a closed channel it returns an
`Err` that every caller in this program discards, so it is a no-op. -/
def Chan.send (c : Chan) (tid : TaskRef) : Chan :=
  if c.closed then c else { c with buf := c.buf ++ [tid] }

/-- The `Task` harness: the boxed future (an opaque allocation id here)
and the executor's sender handle the task was bound to at creation. -/
structure Task where
  future : Nat
  executor : Nat
deriving DecidableEq, Repr

/-- The process state the channel operations act on: the channels that
exist (`executor` fields index into this list) and the `Arc<Task>`
allocations (a `TaskRef` indexes into this ledger). -/
structure World where
  chans : List Chan
  tasks : List Task
deriving DecidableEq, Repr

/-- Send `tid` on sender `i`: update channel `i` by `Chan.send`. -/
def chanSend (cs : List Chan) (i : Nat) (tid : TaskRef) : List Chan :=
  match cs[i]? with
  | some c => cs.set i (c.send tid)
  | none => cs

/-- Function `Task::spawn` (lines 225-235): allocate an `Arc<Task>` holding the
future and a clone of the sender, then send it; the send result is
discarded (`let _ = sender.send(task)`). -/
def Task.spawn (future : Nat) (sender : Nat) (w : World) : World :=
  let tid := w.tasks.length
  { chans := chanSend w.chans sender tid
    tasks := w.tasks ++ [{ future := future, executor := sender }] }

/-- Method `ArcWake::wake_by_ref` for `Task` (lines 255-260): send a clone of the
`Arc<Task>` on the sender the task stored at creation; the send result is
discarded. The lookup is the `Arc` dereference. -/
def wake_by_ref (w : World) (r : TaskRef) : World :=
  match w.tasks[r]? with
  | some t => { w with chans := chanSend w.chans t.executor r }
  | none => w

/-- Fire the same task's waker `n` times in a row. -/
def wakeN (w : World) (r : TaskRef) : Nat → World
  | 0 => w
  | n + 1 => wakeN (wake_by_ref w r) r n

/-- The `MiniTokio` executor: the two halves of one channel, identified by
its index in `World.chans`. -/
structure MiniTokio where
  scheduled : Nat
  sender : Nat
deriving DecidableEq, Repr

/-- Function `MiniTokio::new`: create a fresh unbounded channel and hold both
halves. -/
def MiniTokio.new (w : World) : MiniTokio × World :=
  let i := w.chans.length
  ({ scheduled := i, sender := i }, { w with chans := w.chans ++ [{ buf := [], closed := false }] })

/-- Method `MiniTokio::spawn`: delegate to `Task::spawn` with this executor's
sender. -/
def MiniTokio.spawn (m : MiniTokio) (future : Nat) (w : World) : World :=
  Task.spawn future m.sender w

/-- Initial value of the `CURRENT` thread-local (line 204-207):
`RefCell::new(None)`. It holds the active executor's sender, if any. -/
def CURRENT_init : Option Nat := none

/-- The first statement of `MiniTokio::run` (lines 93-95): store a clone
of this executor's sender in `CURRENT`, overwriting whatever was there. -/
def MiniTokio.runEnter (m : MiniTokio) (_cur : Option Nat) : Option Nat :=
  some m.sender

/-- The free-standing `spawn` (lines 109-118): read `CURRENT`, `unwrap` it
(panic — modelled as `none` — when no executor is active), then
`Task::spawn` on the stored sender. -/
def spawn (future : Nat) (cur : Option Nat) (w : World) : Option World :=
  match cur with
  | none => none
  | some s => some (Task.spawn future s w)

/-- The state of the example task's future, the async block
`async { delay(dur).await; }` (`main`, lines 24-40, and `delay`,
lines 127-201): not yet polled (the `Delay` with `when = now + dur` is
created on the first poll), suspended at the `.await` holding the `Delay`
state, or completed. Polling a completed async block panics in Rust
("resumed after completion"). -/
inductive FutSt where
  | start : Nat → FutSt
  | waiting : Delay → FutSt
  | done : FutSt
deriving DecidableEq, Repr

/-- A single-task execution of the system, at the granularity the claims
about re-polling need: the clock, the scheduled queue (task references;
the only task is `0`), the task's future state, the deadlines of the
spawned timer threads still pending, and whether a poll ever hit a
completed future (a Rust panic in `Task::poll`, which polls the boxed
future unconditionally and discards the result, lines 239-250). -/
structure Scen where
  time : Nat
  queue : List TaskRef
  fut : FutSt
  timers : List Nat
  panicked : Bool
deriving DecidableEq, Repr

/-- Poll the task's `Delay` at the current instant with task 0's waker:
the `.await` returns control, the future becomes `done` on `Ready`, and a
freshly spawned timer thread (deadline `when`) is recorded. Throughout
this scenario the shared slot holds task 0's waker. -/
def scenPollDelay (s : Scen) (d : Delay) : Scen :=
  let r := d.poll { taskRef := 0 } s.time
  { s with
    fut := match r.2.1 with
      | Poll.Ready _ => FutSt.done
      | Poll.Pending => FutSt.waiting r.1
    timers := if r.2.2 then s.timers ++ [r.1.when] else s.timers }

/-- One iteration of the run loop (lines 99-102): receive the head task
and call `Task::poll` on it, which polls the boxed future whatever its
state. On a `start` future the async block builds the `Delay` with
`when = Instant::now() + dur` and polls it; on a `waiting` future it polls
the stored `Delay`; on a `done` future the poll panics ("resumed after
completion"), recorded in `panicked`. -/
def scenPoll (s : Scen) : Scen :=
  match s.queue with
  | [] => s
  | _ :: rest =>
      let s1 := { s with queue := rest }
      match s.fut with
      | FutSt.done => { s1 with panicked := true }
      | FutSt.start dur => scenPollDelay s1 { when := s.time + dur, waker := none }
      | FutSt.waiting d => scenPollDelay s1 d

/-- Run the earliest pending timer thread to completion: the clock
advances to its fire instant and the waker held in the shared slot —
task 0's waker throughout this scenario — is fired, enqueuing task 0. -/
def scenTimer (s : Scen) : Scen :=
  match s.timers with
  | [] => s
  | whenT :: ts =>
      { s with
        time := timerFireTime whenT s.time
        timers := ts
        queue := s.queue ++ [0] }

/-- The scenario's initial state: one task, `async { delay(dur).await; }`,
just spawned onto the queue at instant 0. -/
def scenInit (dur : Nat) : Scen :=
  { time := 0, queue := [0], fut := FutSt.start dur, timers := [], panicked := false }

/-- The run loop (lines 99-102) at the queue level: each iteration pops
the head of the scheduled queue and polls that task; whatever the poll
enqueues (nested spawns, wakes) is appended at the tail, abstracted by
`eff`. The result is the sequence of tasks delivered to the consumer, in
delivery order, over `n` iterations. -/
def runTrace (eff : TaskRef → List TaskRef) : List TaskRef → Nat → List TaskRef
  | [], _ => []
  | _ :: _, 0 => []
  | t :: rest, n + 1 => t :: runTrace eff (rest ++ eff t) n


/-! ## Helper lemmas -/

/-- Setting a list entry to the value it already holds is the identity. -/
theorem list_set_self {α : Type} :
    ∀ (l : List α) (i : Nat) (c : α), l[i]? = some c → l.set i c = l
  | [], _, _, h => by simp at h
  | x :: xs, 0, c, h => by
      simp at h
      simp [h]
  | x :: xs, i + 1, c, h => by
      simp at h
      simp [List.set]
      exact list_set_self xs i c h

/-- After any poll, the waker slot of a `Delay` is occupied. -/
theorem poll_waker_isSome (d : Delay) (cx : Waker) (now : Nat) :
    ((d.poll cx now).1).waker.isSome = true := by
  cases h : d.waker with
  | none => simp [Delay.poll, h]
  | some w =>
      simp [Delay.poll, h]
      split
      · simp
      · simp [h]

/-- A poll whose delay already holds a waker does not spawn a timer. -/
theorem poll_no_spawn_of_isSome (d : Delay) (cx : Waker) (now : Nat)
    (h : d.waker.isSome = true) : (d.poll cx now).2.2 = false := by
  obtain ⟨w, hw⟩ := Option.isSome_iff_exists.mp h
  simp [Delay.poll, hw]

/-- A poll sequence starting with an occupied waker slot spawns no timer. -/
theorem pollSeq_no_spawn :
    ∀ (l : List (Waker × Nat)) (d : Delay),
      d.waker.isSome = true → (d.pollSeq l).2 = 0
  | [], d, _ => rfl
  | (cx, now) :: rest, d, h => by
      have h2 := poll_waker_isSome d cx now
      have h3 := poll_no_spawn_of_isSome d cx now h
      simp [Delay.pollSeq, h3, pollSeq_no_spawn rest _ h2]

/-- One wake on an open channel appends exactly the woken task reference. -/
theorem wake_by_ref_eq (w : World) (r : TaskRef) (t : Task) (c : Chan)
    (ht : w.tasks[r]? = some t) (hc : w.chans[t.executor]? = some c)
    (hopen : c.closed = false) :
    wake_by_ref w r =
      { w with chans := w.chans.set t.executor { c with buf := c.buf ++ [r] } } := by
  simp [wake_by_ref, ht, chanSend, hc, Chan.send, hopen]

/-- Delivery order of the run loop: the task at position `i` of the
already-scheduled queue is the `i`-th task received, whatever later polls
append behind it. -/
theorem runTrace_getElem (eff : TaskRef → List TaskRef) :
    ∀ (n : Nat) (q : List TaskRef) (i : Nat),
      i < q.length → i < n → (runTrace eff q n)[i]? = q[i]?
  | 0, _, _, _, hn => absurd hn (Nat.not_lt_zero _)
  | n + 1, [], i, hq, _ => absurd hq (by simp)
  | n + 1, t :: rest, 0, _, _ => by simp [runTrace]
  | n + 1, t :: rest, i + 1, hq, hn => by
      have hi : i < rest.length := by simpa using hq
      have hi2 : i < n := by omega
      calc (runTrace eff (t :: rest) (n + 1))[i + 1]?
          = (runTrace eff (rest ++ eff t) n)[i]? := by simp [runTrace]
        _ = (rest ++ eff t)[i]? := runTrace_getElem eff n (rest ++ eff t) i (by simp; omega) hi2
        _ = rest[i]? := List.getElem?_append_left hi
        _ = (t :: rest)[i + 1]? := by simp

/-! ## Claims -/

/-- C1: polling a `Delay` strictly before its `when` deadline returns
`Pending`, and polling it at or after the deadline returns `Ready`,
regardless of the state of the waker slot (first poll or re-poll) and
hence regardless of how many polls happened before. -/
theorem delay_poll_deadline_monotone (d : Delay) (cx : Waker) (now : Nat) :
    (d.poll cx now).2.1 =
      if d.when ≤ now then Poll.Ready () else Poll.Pending :=
  rfl

/-- C2: the code does not make a completed Task's re-advance a no-op.
Concrete run of `async { delay(0).await; }`: the first poll completes
the future (and spawns the timer thread), the stray timer wake re-enqueues
the completed task, and the next run-loop iteration polls the finished
future again — in Rust, a panic ("resumed after completion"). -/
theorem completed_task_repolled_after_stray_wake :
    (scenPoll (scenInit 0)).fut = FutSt.done ∧
    (scenTimer (scenPoll (scenInit 0))).queue = [0] ∧
    (scenPoll (scenTimer (scenPoll (scenInit 0)))).panicked = true := by
  refine ⟨rfl, rfl, rfl⟩

/-- C3 (counterexample): before `run` is called, the `CURRENT` slot does
not hold the executor's producer handle — it still has its initial value
`None`, for the concrete executor created in the empty world. -/
theorem current_slot_empty_before_run :
    CURRENT_init ≠ some (MiniTokio.new { chans := [], tasks := [] }).1.sender := by
  simp [CURRENT_init, MiniTokio.new]

/-- C3 (amended): the `CURRENT` slot is set to the executor's producer
handle by the first statement of `run` (before the loop pops any task),
and the free-standing `spawn` helper reads that slot and performs exactly
the same wrap-and-enqueue as the executor's own `spawn` method. -/
theorem current_slot_set_at_run_entry_and_spawn_matches :
    (∀ (m : MiniTokio) (cur : Option Nat), m.runEnter cur = some m.sender) ∧
    (∀ (m : MiniTokio) (future : Nat) (w : World),
        spawn future (m.runEnter CURRENT_init) w = some (m.spawn future w)) :=
  ⟨fun _ _ => rfl, fun _ _ _ => rfl⟩

/-- C7: calling the free-standing `spawn` helper when no executor is
active (`CURRENT` empty) panics (`Option::unwrap` on `None`, modelled by
`none`): it never returns a world with the computation silently dropped. -/
theorem spawn_without_executor_panics (future : Nat) (w : World) :
    spawn future none w = none :=
  rfl

/-- C9: a first poll whose deadline has already passed still captures the
context waker and spawns the timer thread (shown for every deadline,
waker and instant), and in the concrete `delay(0)` run the same poll
returns `Ready` while the timer wake later re-enqueues the task — a wake
fires after the `Delay` has already reported `Ready`. -/
theorem ready_first_poll_still_spawns_and_rewakes :
    (∀ (whenT : Nat) (cx : Waker) (now : Nat),
        (Delay.poll { when := whenT, waker := none } cx now).1.waker = some cx ∧
        (Delay.poll { when := whenT, waker := none } cx now).2.2 = true) ∧
    (scenPoll (scenInit 0)).fut = FutSt.done ∧
    (scenPoll (scenInit 0)).timers = [0] ∧
    (scenTimer (scenPoll (scenInit 0))).queue = [0] ∧
    (scenTimer (scenPoll (scenInit 0))).time = 0 :=
  ⟨fun _ _ _ => ⟨rfl, rfl⟩, rfl, rfl, rfl, rfl⟩


/-- C4: on a poll that finds the waker slot occupied, the stored waker is
kept when it would wake the same task as the context's waker and is
replaced by the context's waker otherwise; the `when` deadline (and, with
it, all other `Delay` state) is unchanged either way, and no timer thread
is spawned. -/
theorem delay_repoll_waker_replacement (d : Delay) (w cx : Waker) (now : Nat)
    (h : d.waker = some w) :
    (w.will_wake cx = true → (d.poll cx now).1 = d) ∧
    (w.will_wake cx = false → (d.poll cx now).1 = { d with waker := some cx }) ∧
    (d.poll cx now).1.when = d.when ∧
    (d.poll cx now).2.2 = false := by
  cases hw : w.will_wake cx <;> simp [Delay.poll, h, hw]

/-- C4 witness: a stored waker for task 2 re-polled from task 1's context
is replaced, the deadline 5 is untouched, and no timer is spawned. -/
theorem delay_repoll_waker_replacement_witness :
    (Waker.will_wake { taskRef := 2 } { taskRef := 1 } = true →
      (Delay.poll { when := 5, waker := some { taskRef := 2 } } { taskRef := 1 } 0).1 =
        { when := 5, waker := some { taskRef := 2 } }) ∧
    (Waker.will_wake { taskRef := 2 } { taskRef := 1 } = false →
      (Delay.poll { when := 5, waker := some { taskRef := 2 } } { taskRef := 1 } 0).1 =
        { when := 5, waker := some { taskRef := 1 } }) ∧
    (Delay.poll { when := 5, waker := some { taskRef := 2 } } { taskRef := 1 } 0).1.when = 5 ∧
    (Delay.poll { when := 5, waker := some { taskRef := 2 } } { taskRef := 1 } 0).2.2 = false :=
  delay_repoll_waker_replacement
    { when := 5, waker := some { taskRef := 2 } } { taskRef := 2 } { taskRef := 1 } 0 rfl

/-- C5: on a delay whose waker slot is absent, the poll captures the
context's waker into the slot and spawns a timer thread; over any sequence
of further polls of the same instance, exactly one timer thread is ever
spawned; the timer thread does not fire before the deadline instant and
fires the waker then held in the shared slot exactly once. -/
theorem delay_first_poll_single_waiter (d : Delay) (cx : Waker) (now : Nat)
    (rest : List (Waker × Nat)) (whenT now0 : Nat) (slot : Waker)
    (h : d.waker = none) :
    (d.poll cx now).1.waker = some cx ∧
    (d.poll cx now).2.2 = true ∧
    (d.pollSeq ((cx, now) :: rest)).2 = 1 ∧
    whenT ≤ (timerThread whenT now0 slot).1 ∧
    (timerThread whenT now0 slot).2 = [slot] := by
  have hspawn : (d.poll cx now).2.2 = true := by simp [Delay.poll, h]
  refine ⟨by simp [Delay.poll, h], hspawn, ?_, ?_, rfl⟩
  · simp [Delay.pollSeq, hspawn,
      pollSeq_no_spawn rest _ (poll_waker_isSome d cx now)]
  · simp only [timerThread, timerFireTime]
    split <;> omega

/-- C5 witness: a fresh delay with deadline 4 first polled at instant 9
from task 0's context, then re-polled twice; one timer thread in total,
and a timer with deadline 4 read at instant 2 fires at or after 4. -/
theorem delay_first_poll_single_waiter_witness :
    (Delay.poll { when := 4, waker := none } { taskRef := 0 } 9).1.waker =
      some { taskRef := 0 } ∧
    (Delay.poll { when := 4, waker := none } { taskRef := 0 } 9).2.2 = true ∧
    (Delay.pollSeq { when := 4, waker := none }
      (({ taskRef := 0 }, 9) :: [({ taskRef := 1 }, 10), ({ taskRef := 1 }, 12)])).2 = 1 ∧
    4 ≤ (timerThread 4 2 { taskRef := 1 }).1 ∧
    (timerThread 4 2 { taskRef := 1 }).2 = [{ taskRef := 1 }] :=
  delay_first_poll_single_waiter { when := 4, waker := none } { taskRef := 0 } 9
    [({ taskRef := 1 }, 10), ({ taskRef := 1 }, 12)] 4 2 { taskRef := 1 } rfl

/-- C6: firing a task's wake signal `n` times, for any `n`, is safe and
each firing enqueues exactly that task onto the channel its `executor`
field was bound to at creation: the task ledger is untouched, the bound
channel's buffer gains `n` copies of the task reference at its tail, and
every other channel is unchanged. -/
theorem wake_enqueues_exactly_bound_task (w : World) (r : TaskRef) (t : Task)
    (c : Chan) (n j : Nat)
    (ht : w.tasks[r]? = some t)
    (hc : w.chans[t.executor]? = some c)
    (hopen : c.closed = false)
    (hj : j ≠ t.executor) :
    (wakeN w r n).tasks = w.tasks ∧
    (wakeN w r n).chans[t.executor]? =
      some { buf := c.buf ++ List.replicate n r, closed := false } ∧
    (wakeN w r n).chans[j]? = w.chans[j]? := by
  obtain ⟨cbuf, cc⟩ := c
  cases cc with
  | true => exact absurd hopen (by simp)
  | false =>
    induction n generalizing w cbuf with
    | zero =>
        refine ⟨rfl, ?_, rfl⟩
        simp only [wakeN]
        rw [hc]
        simp
    | succ k ih =>
        have hlt : t.executor < w.chans.length := by
          by_contra hge
          rw [List.getElem?_eq_none (Nat.le_of_not_lt hge)] at hc
          exact Option.noConfusion hc
        have hstep := wake_by_ref_eq w r t ⟨cbuf, false⟩ ht hc rfl
        have ht2 : (wake_by_ref w r).tasks[r]? = some t := by
          rw [hstep]
          exact ht
        have hc2 : (wake_by_ref w r).chans[t.executor]? =
            some ⟨cbuf ++ [r], false⟩ := by
          rw [hstep]
          exact List.getElem?_set_self hlt
        obtain ⟨ih1, ih2, ih3⟩ := ih (wake_by_ref w r) ht2 (cbuf ++ [r]) hc2 rfl
        refine ⟨?_, ?_, ?_⟩
        · simp only [wakeN]
          rw [ih1, hstep]
        · simp only [wakeN]
          rw [ih2]
          simp [List.replicate_succ]
        · simp only [wakeN]
          rw [ih3, hstep]
          exact List.getElem?_set_ne (fun he => hj he.symm)

/-- C6 witness: waking task 0 (bound to channel 0) twice in a world with
two open channels enqueues 0 twice on channel 0 and leaves the ledger and
channel 1 unchanged. -/
theorem wake_enqueues_exactly_bound_task_witness :
    (wakeN { chans := [{ buf := [], closed := false }, { buf := [9], closed := false }],
             tasks := [{ future := 7, executor := 0 }] } 0 2).tasks =
      ({ chans := [{ buf := [], closed := false }, { buf := [9], closed := false }],
         tasks := [{ future := 7, executor := 0 }] } : World).tasks ∧
    (wakeN { chans := [{ buf := [], closed := false }, { buf := [9], closed := false }],
             tasks := [{ future := 7, executor := 0 }] } 0 2).chans[
        ({ future := 7, executor := 0 } : Task).executor]? =
      some { buf := [] ++ List.replicate 2 0, closed := false } ∧
    (wakeN { chans := [{ buf := [], closed := false }, { buf := [9], closed := false }],
             tasks := [{ future := 7, executor := 0 }] } 0 2).chans[1]? =
      ({ chans := [{ buf := [], closed := false }, { buf := [9], closed := false }],
         tasks := [{ future := 7, executor := 0 }] } : World).chans[1]? :=
  wake_enqueues_exactly_bound_task
    { chans := [{ buf := [], closed := false }, { buf := [9], closed := false }],
      tasks := [{ future := 7, executor := 0 }] }
    0 { future := 7, executor := 0 } { buf := [], closed := false } 2 1
    rfl rfl rfl (by decide)

/-- C8: FIFO delivery of the run loop. If tasks `A` and `B` sit at
positions `i < j` of the scheduled queue, then over any sufficiently long
run the loop delivers `A` as its `i`-th received task and `B` as its
`j`-th, whatever later polls enqueue — so `A` is advanced strictly before
`B`. -/
theorem run_loop_fifo_delivery (eff : TaskRef → List TaskRef)
    (q : List TaskRef) (i j n : Nat)
    (hij : i < j) (hj : j < q.length) (hn : j < n) :
    (runTrace eff q n)[i]? = q[i]? ∧ (runTrace eff q n)[j]? = q[j]? :=
  ⟨runTrace_getElem eff n q i (Nat.lt_trans hij hj) (Nat.lt_trans hij hn),
   runTrace_getElem eff n q j hj hn⟩

/-- C8 witness: with queue `[10, 20, 30]` and polls that each enqueue task
99 behind, three loop iterations deliver 10 first and 30 third. -/
theorem run_loop_fifo_delivery_witness :
    (runTrace (fun _ => [99]) [10, 20, 30] 3)[0]? = [10, 20, 30][0]? ∧
    (runTrace (fun _ => [99]) [10, 20, 30] 3)[2]? = [10, 20, 30][2]? :=
  run_loop_fifo_delivery (fun _ => [99]) [10, 20, 30] 0 2 3
    (by decide) (by decide) (by decide)

/-- C10: when the consumer side of the channel is gone (`closed`), both
`Task::spawn` and `wake_by_ref` discard the send result: the channels are
left exactly as they were (the task is silently dropped, nothing is
enqueued anywhere) and — both operations being total functions here, in
contrast to the `Option`-valued free-standing `spawn` — neither panics
nor reports an error. -/
theorem send_failure_silently_ignored (w : World) (i : Nat) (c : Chan)
    (future : Nat) (r : TaskRef) (t : Task)
    (hc : w.chans[i]? = some c) (hclosed : c.closed = true)
    (ht : w.tasks[r]? = some t) (hex : t.executor = i) :
    (Task.spawn future i w).chans = w.chans ∧
    (Task.spawn future i w).tasks = w.tasks ++ [{ future := future, executor := i }] ∧
    wake_by_ref w r = w := by
  have hsend : ∀ tid, Chan.send c tid = c := by
    intro tid
    simp [Chan.send, hclosed]
  have hchan : ∀ tid, chanSend w.chans i tid = w.chans := by
    intro tid
    simp [chanSend, hc, hsend, list_set_self w.chans i c hc]
  refine ⟨hchan _, rfl, ?_⟩
  simp [wake_by_ref, ht, hex, hchan]

/-- C10 witness: spawning onto and waking through a closed channel leave
the single channel untouched; the spawned task is recorded in the ledger
but never enqueued. -/
theorem send_failure_silently_ignored_witness :
    (Task.spawn 5 0 { chans := [{ buf := [], closed := true }],
                      tasks := [{ future := 3, executor := 0 }] }).chans =
      ({ chans := [{ buf := [], closed := true }],
         tasks := [{ future := 3, executor := 0 }] } : World).chans ∧
    (Task.spawn 5 0 { chans := [{ buf := [], closed := true }],
                      tasks := [{ future := 3, executor := 0 }] }).tasks =
      ({ chans := [{ buf := [], closed := true }],
         tasks := [{ future := 3, executor := 0 }] } : World).tasks ++
        [{ future := 5, executor := 0 }] ∧
    wake_by_ref { chans := [{ buf := [], closed := true }],
                  tasks := [{ future := 3, executor := 0 }] } 0 =
      { chans := [{ buf := [], closed := true }],
        tasks := [{ future := 3, executor := 0 }] } :=
  send_failure_silently_ignored
    { chans := [{ buf := [], closed := true }],
      tasks := [{ future := 3, executor := 0 }] }
    0 { buf := [], closed := true } 5 0 { future := 3, executor := 0 }
    rfl rfl rfl rfl

end MiTokio
